import Mathlib

/-!
Verification development for the rabbitmq-masstransit-mcp server.

The embedding models the MassTransit classification-and-formatting engine
(src/masstransit.ts), the peek_messages formatting excerpt (tools/messages.ts),
and the two-phase republish_from_error orchestrator (tools/masstransit.ts)
together with the ack-mode behaviour of the management-API client
(src/rabbitmq-client.ts).

JavaScript dynamic values are embedded as a `Json` inductive; the host
builtins the code relies on (JSON.parse, JSON.stringify, the WHATWG URL
parser, string methods) are modelled explicitly as executable Lean
functions, each marked as a builtin model in its doc comment.
-/

/-- Dynamic JSON/JavaScript value, as produced by JSON.parse.  Numbers are
restricted to integers (the only numeric values exercised by this system). -/
inductive Json where
  | null : Json
  | bool : Bool → Json
  | num : Int → Json
  | str : String → Json
  | arr : List Json → Json
  | obj : List (String × Json) → Json

/-- The opening-brace character, written numerically. -/
def lbraceChar : Char := Char.ofNat 123

/-- The closing-brace character, written numerically. -/
def rbraceChar : Char := Char.ofNat 125

/-- JavaScript truthiness of a JSON value. -/
def jsTruthy : Json → Bool
  | .null => false
  | .bool b => b
  | .num n => n != 0
  | .str s => !s.data.isEmpty
  | .arr _ => true
  | .obj _ => true

/-- Truthiness of a possibly-undefined value (undefined is falsy). -/
def truthyOpt : Option Json → Bool
  | none => false
  | some j => jsTruthy j

/-- True exactly on the JSON null value. -/
def isJsNull : Json → Bool
  | .null => true
  | _ => false

/-- JavaScript property access `j[k]`: only objects have string-keyed
properties; a repeated key in a JSON text binds to its last occurrence,
so the last matching member wins. -/
def jsonGet (j : Json) (k : String) : Option Json :=
  match j with
  | .obj kvs => (kvs.filterMap (fun kv => if kv.1 = k then some kv.2 else none)).getLast?
  | _ => none

/-- Optional-chaining property access `o?.k`. -/
def optGet (o : Option Json) (k : String) : Option Json :=
  o.bind (fun j => jsonGet j k)

mutual

/-- Modelled builtin: JavaScript ToString coercion as used in template
literals (String(v)).  Objects print as [object Object]; arrays join their
elements with commas. -/
def jsToString : Json → String
  | .null => "null"
  | .bool true => "true"
  | .bool false => "false"
  | .num n => toString n
  | .str s => s
  | .arr xs => String.intercalate "," (jsToStringList xs)
  | .obj _ => "[object Object]"

/-- ToString coercion mapped over array elements. -/
def jsToStringList : List Json → List String
  | [] => []
  | x :: xs => jsToString x :: jsToStringList xs

end

/-- Nullish coalescing rendered to text: `v ?? d` followed by string
interpolation of the result. -/
def ndefault (o : Option Json) (d : String) : String :=
  match o with
  | none => d
  | some j => if isJsNull j then d else jsToString j

/-- Elements of a JSON array (non-arrays have none); used where the source
statically types a field as an array and maps over it. -/
def asArr : Json → List Json
  | .arr xs => xs
  | _ => []

/-- Modelled builtin: JavaScript String.prototype.endsWith. -/
def jsEndsWith (s suffix : String) : Bool :=
  suffix.data.isSuffixOf s.data

/-- Modelled builtin: JavaScript String.prototype.startsWith. -/
def jsStartsWith (s pre : String) : Bool :=
  pre.data.isPrefixOf s.data

/-- Modelled builtin: JavaScript slice(0, -k) on a string, dropping the last
k characters. -/
def jsDropRight (s : String) (k : Nat) : String :=
  String.mk (s.data.take (s.data.length - k))

/-- Modelled builtin: JavaScript slice(0, k) on a string. -/
def jsTake (s : String) (k : Nat) : String :=
  String.mk (s.data.take k)

/-- Modelled builtin: JavaScript String length (character count). -/
def jsLength (s : String) : Nat :=
  s.data.length

/-- Whitespace recognised by trim and by the JSON parser. -/
def isWsChar (c : Char) : Bool :=
  c = ' ' || c = '\t' || c = '\n' || c = '\r'

/-- Modelled builtin: JavaScript String.prototype.trim. -/
def jsTrim (s : String) : String :=
  String.mk (((s.data.dropWhile isWsChar).reverse.dropWhile isWsChar).reverse)

/-- Split a character list at every occurrence of a separator character;
the result is always non-empty. -/
def splitOnChar (sep : Char) : List Char → List (List Char)
  | [] => [[]]
  | c :: cs =>
    match splitOnChar sep cs with
    | [] => [[c]]
    | g :: gs => if c = sep then [] :: g :: gs else (c :: g) :: gs

/-- Modelled builtin: JavaScript split on a single-character separator. -/
def jsSplit (s : String) (sep : Char) : List String :=
  (splitOnChar sep s.data).map String.mk

/-- Modelled builtin: skipping JSON whitespace. -/
def skipWs (cs : List Char) : List Char :=
  cs.dropWhile isWsChar

/-- Escape handling inside JSON string literals (the escapes exercised by
this system; unsupported escapes fail the parse). -/
def escChar (e : Char) : Option Char :=
  if e = '"' || e = '\\' || e = '/' then some e
  else if e = 'n' then some '\n'
  else if e = 't' then some '\t'
  else if e = 'r' then some '\r'
  else none

/-- Parse the remainder of a JSON string literal after the opening quote. -/
def parseStr : List Char → Option (String × List Char)
  | [] => none
  | '"' :: rest => some ("", rest)
  | '\\' :: e :: rest =>
    match escChar e with
    | none => none
    | some c =>
      match parseStr rest with
      | none => none
      | some (s, r) => some (String.mk (c :: s.data), r)
  | c :: rest =>
    match parseStr rest with
    | none => none
    | some (s, r) => some (String.mk (c :: s.data), r)

/-- Parse a JSON integer literal (the numeric fragment this model covers). -/
def parseNum (cs : List Char) : Option (Json × List Char) :=
  match cs with
  | '-' :: rest =>
    match rest.takeWhile Char.isDigit with
    | [] => none
    | ds => some (.num (-(Int.ofNat (ds.foldl (fun a c => 10 * a + (c.toNat - 48)) 0))),
                  rest.dropWhile Char.isDigit)
  | _ =>
    match cs.takeWhile Char.isDigit with
    | [] => none
    | ds => some (.num (Int.ofNat (ds.foldl (fun a c => 10 * a + (c.toNat - 48)) 0)),
                  cs.dropWhile Char.isDigit)

mutual

/-- Fuelled recursive-descent JSON value parser. -/
def parseVal : Nat → List Char → Option (Json × List Char)
  | 0, _ => none
  | fuel + 1, cs =>
    match skipWs cs with
    | 'n' :: 'u' :: 'l' :: 'l' :: rest => some (.null, rest)
    | 't' :: 'r' :: 'u' :: 'e' :: rest => some (.bool true, rest)
    | 'f' :: 'a' :: 'l' :: 's' :: 'e' :: rest => some (.bool false, rest)
    | '"' :: rest =>
      match parseStr rest with
      | none => none
      | some (s, r) => some (.str s, r)
    | '[' :: rest =>
      (match skipWs rest with
       | ']' :: r2 => some (.arr [], r2)
       | _ =>
         match parseItems fuel (skipWs rest) with
         | none => none
         | some (xs, r2) => some (.arr xs, r2))
    | c :: rest =>
      if c = lbraceChar then
        (match skipWs rest with
         | c2 :: r2 =>
           if c2 = rbraceChar then some (.obj [], r2)
           else
             match parseMembers fuel (skipWs rest) with
             | none => none
             | some (kvs, r3) => some (.obj kvs, r3)
         | [] => none)
      else if c = '-' || c.isDigit then parseNum (c :: rest)
      else none
    | [] => none

/-- Fuelled parser for the comma-separated items of a non-empty JSON array. -/
def parseItems : Nat → List Char → Option (List Json × List Char)
  | 0, _ => none
  | fuel + 1, cs =>
    match parseVal fuel cs with
    | none => none
    | some (x, r) =>
      match skipWs r with
      | ',' :: r2 =>
        (match parseItems fuel r2 with
         | none => none
         | some (xs, r3) => some (x :: xs, r3))
      | ']' :: r2 => some ([x], r2)
      | _ => none

/-- Fuelled parser for the comma-separated members of a non-empty JSON object. -/
def parseMembers : Nat → List Char → Option (List (String × Json) × List Char)
  | 0, _ => none
  | fuel + 1, cs =>
    match skipWs cs with
    | '"' :: rest =>
      (match parseStr rest with
       | none => none
       | some (k, r) =>
         match skipWs r with
         | ':' :: r2 =>
           (match parseVal fuel r2 with
            | none => none
            | some (v, r3) =>
              match skipWs r3 with
              | ',' :: r4 =>
                (match parseMembers fuel r4 with
                 | none => none
                 | some (kvs, r5) => some ((k, v) :: kvs, r5))
              | c :: r4 => if c = rbraceChar then some ([(k, v)], r4) else none
              | [] => none)
         | _ => none)
    | _ => none

end

/-- Modelled builtin: JSON.parse, restricted to the JSON fragment this
system exchanges (integer numbers, the common string escapes); returns
none where JSON.parse would throw. -/
def jsonParse (s : String) : Option Json :=
  match parseVal (2 * s.data.length + 2) s.data with
  | some (j, rest) => if (skipWs rest).isEmpty then some j else none
  | none => none

/-- Indentation run of spaces. -/
def spaces (n : Nat) : String :=
  String.mk (List.replicate n ' ')

/-- Escaping of one character inside a produced JSON string literal. -/
def jsonEscapeChar (c : Char) : List Char :=
  if c = '"' then ['\\', '"']
  else if c = '\\' then ['\\', '\\']
  else if c = '\n' then ['\\', 'n']
  else if c = '\t' then ['\\', 't']
  else if c = '\r' then ['\\', 'r']
  else [c]

/-- Quote a string as a JSON string literal. -/
def jsonQuote (s : String) : String :=
  "\"" ++ String.mk (s.data.flatMap jsonEscapeChar) ++ "\""

mutual

/-- Modelled builtin: JSON.stringify(v, null, 2) at a given indentation. -/
def jsonStringify2 : Nat → Json → String
  | _, .null => "null"
  | _, .bool true => "true"
  | _, .bool false => "false"
  | _, .num n => toString n
  | _, .str s => jsonQuote s
  | _, .arr [] => "[]"
  | ind, .arr (x :: xs) =>
    "[\n" ++ String.intercalate ",\n" (stringifyList (ind + 2) (x :: xs)) ++
      "\n" ++ spaces ind ++ "]"
  | _, .obj [] => "\x7b\x7d"
  | ind, .obj (kv :: kvs) =>
    "\x7b\n" ++ String.intercalate ",\n" (stringifyMembers (ind + 2) (kv :: kvs)) ++
      "\n" ++ spaces ind ++ "\x7d"

/-- Pretty-printed array items, each on its own indented line. -/
def stringifyList : Nat → List Json → List String
  | _, [] => []
  | ind, x :: xs => (spaces ind ++ jsonStringify2 ind x) :: stringifyList ind xs

/-- Pretty-printed object members, each on its own indented line. -/
def stringifyMembers : Nat → List (String × Json) → List String
  | _, [] => []
  | ind, (k, v) :: kvs =>
    (spaces ind ++ jsonQuote k ++ ": " ++ jsonStringify2 ind v) :: stringifyMembers ind kvs

end

/-- Modelled builtin: JSON.stringify(v, null, 2) as called by the source. -/
def jsonStringify (j : Json) : String :=
  jsonStringify2 0 j

/-! ## Queue naming classifier and URN decoder (src/masstransit.ts) -/

/-- isErrorQueue from src/masstransit.ts: name ends with the literal
suffix _error. -/
def isErrorQueue (name : String) : Bool :=
  jsEndsWith name "_error"

/-- isSkippedQueue from src/masstransit.ts: name ends with the literal
suffix _skipped. -/
def isSkippedQueue (name : String) : Bool :=
  jsEndsWith name "_skipped"

/-- getSourceQueue from src/masstransit.ts: strip whichever failure suffix
matches (slice(0, -suffix.length)), else return the name unchanged. -/
def getSourceQueue (errorQueueName : String) : String :=
  if jsEndsWith errorQueueName "_error" then jsDropRight errorQueueName 6
  else if jsEndsWith errorQueueName "_skipped" then jsDropRight errorQueueName 8
  else errorQueueName

/-- getMessageTypeName from src/masstransit.ts: strip the urn:message:
prefix and turn every remaining colon into a period; other inputs pass
through unchanged. -/
def getMessageTypeName (urn : String) : String :=
  if !jsStartsWith urn "urn:message:" then urn
  else String.mk ((urn.data.drop 12).map (fun c => if c = ':' then '.' else c))

/-! ## Envelope parser and fault extractors (src/masstransit.ts) -/

/-- parseEnvelope from src/masstransit.ts: JSON-parse the payload; return
the parsed value when it is truthy and one of messageType, messageId or
message is truthy on it, else null.  Parse failure also yields null. -/
def parseEnvelope (payload : String) : Option Json :=
  match jsonParse payload with
  | none => none
  | some parsed =>
    if jsTruthy parsed &&
        (truthyOpt (jsonGet parsed "messageType") ||
         truthyOpt (jsonGet parsed "messageId") ||
         truthyOpt (jsonGet parsed "message")) then
      some parsed
    else none

/-- Normalized fault record as built at runtime by parseFaultFromHeaders
and parseFault (the MassTransitFault object shape). -/
structure Fault where
  faultId : Option Json := none
  faultedMessageId : Option Json := none
  timestamp : Option Json := none
  consumerType : Option Json := none
  inputAddress : Option Json := none
  messageType : Option Json := none
  retryCount : Option Json := none
  reason : Option Json := none
  exceptions : Option (List Json) := none
  message : Option Json := none
  host : Option Json := none

/-- Nullish coalescing on possibly-undefined JSON values. -/
def nullishOr (a b : Option Json) : Option Json :=
  match a with
  | some v => if isJsNull v then b else some v
  | none => b

/-- Header lookup on the unique-keyed header mapping. -/
def hget (headers : List (String × Json)) (k : String) : Option Json :=
  (headers.find? (fun kv => kv.1 = k)).map (fun kv => kv.2)

/-- The exception object literal built by parseFaultFromHeaders; fields
whose header is absent are undefined on the object, which no consumer
distinguishes from the key being absent. -/
def headerException (exceptionType : Json) (faultMessage stackTrace : Option Json) : Json :=
  Json.obj ([("exceptionType", exceptionType)] ++
    (match faultMessage with | some m => [("message", m)] | none => []) ++
    (match stackTrace with | some st => [("stackTrace", st)] | none => []))

/-- The host object literal built by parseFaultFromHeaders from the
MT-Host-* header family. -/
def headerHost (headers : List (String × Json)) : Json :=
  Json.obj (([
    ("machineName", hget headers "MT-Host-MachineName"),
    ("processName", hget headers "MT-Host-ProcessName"),
    ("processId", hget headers "MT-Host-ProcessId"),
    ("assembly", hget headers "MT-Host-Assembly"),
    ("assemblyVersion", hget headers "MT-Host-AssemblyVersion"),
    ("frameworkVersion", hget headers "MT-Host-FrameworkVersion"),
    ("massTransitVersion", hget headers "MT-Host-MassTransitVersion"),
    ("operatingSystemVersion", hget headers "MT-Host-OperatingSystemVersion")
  ] : List (String × Option Json)).filterMap
    (fun kv => kv.2.map (fun v => (kv.1, v))))

/-- parseFaultFromHeaders from src/masstransit.ts: recognize a fault iff
MT-Reason or MT-Fault-ExceptionType is truthy, then build the fault from
the fixed MT-Fault-* and MT-Host-* header keys. -/
def parseFaultFromHeaders (headers : List (String × Json)) : Option Fault :=
  let reason := hget headers "MT-Reason"
  let exceptionType := hget headers "MT-Fault-ExceptionType"
  let faultMessage := hget headers "MT-Fault-Message"
  if !truthyOpt reason && !truthyOpt exceptionType then none
  else some {
    faultedMessageId := none
    timestamp := hget headers "MT-Fault-Timestamp"
    consumerType := hget headers "MT-Fault-ConsumerType"
    inputAddress := hget headers "MT-Fault-InputAddress"
    messageType := hget headers "MT-Fault-MessageType"
    retryCount := hget headers "MT-Fault-RetryCount"
    reason := reason
    exceptions :=
      match exceptionType with
      | some et =>
        if jsTruthy et then
          some [headerException et faultMessage (hget headers "MT-Fault-StackTrace")]
        else none
      | none => none
    host := some (headerHost headers)
  }

/-- parseFault from src/masstransit.ts: body-based fault detection.  The
payload parses, its message field is truthy and its message.exceptions is a
non-empty array; the fault takes exceptions verbatim, message from
message.message and host from the envelope. -/
def parseFault (payload : String) : Option Fault :=
  match jsonParse payload with
  | none => none
  | some envelope =>
    match jsonGet envelope "message" with
    | none => none
    | some msg =>
      if !jsTruthy msg then none
      else
        match jsonGet msg "exceptions" with
        | some (Json.arr (e :: es)) =>
          some {
            faultId := jsonGet msg "faultId"
            faultedMessageId := jsonGet msg "faultedMessageId"
            timestamp := nullishOr (jsonGet envelope "sentTime") (jsonGet msg "timestamp")
            exceptions := some (e :: es)
            message := jsonGet msg "message"
            host := jsonGet envelope "host"
          }
        | _ => none

/-! ## Fault formatter (src/masstransit.ts, formatFaultMessage) -/

/-- A message as returned by the management get endpoint, restricted to the
fields this core reads. -/
structure PeekedMessage where
  payload : String
  exchange : String
  routing_key : String
  headers : Option (List (String × Json)) := none
  content_type : Option String := none
  message_id : Option String := none

/-- Decoded message type names of an Envelope, as computed by the body-fault
and plain-envelope branches: map getMessageTypeName over a truthy
messageType array, else the empty list.  Array elements are typed as
strings in the source. -/
def envMessageTypes (envelope : Option Json) : List String :=
  match optGet envelope "messageType" with
  | some mt =>
    if jsTruthy mt then (asArr mt).map (fun e => getMessageTypeName (jsToString e))
    else []
  | none => []

/-- Resolved message type string of the header-fault branch: prefer the
literal MT-Fault-MessageType header value, else join the decoded envelope
types, else the word unknown. -/
def headerMessageTypeString (mt : Option Json) (envelope : Option Json) : String :=
  let fromEnv : String :=
    match optGet envelope "messageType" with
    | some emt =>
      if jsTruthy emt then
        String.intercalate ", " ((asArr emt).map (fun e => getMessageTypeName (jsToString e)))
      else "unknown"
    | none => "unknown"
  match mt with
  | some v => if isJsNull v then fromEnv else jsToString v
  | none => fromEnv

/-- Source-host summary line content: machine / process (PID n), or the
word unknown when the host value is not truthy. -/
def hostInfoString (host : Option Json) : String :=
  if truthyOpt host then
    ndefault (optGet host "machineName") "unknown" ++ " / " ++
      ndefault (optGet host "processName") "unknown" ++ " (PID " ++
      ndefault (optGet host "processId") "?" ++ ")"
  else "unknown"

/-- The stack-trace lines selected for rendering: split on newlines and
keep the first 8. -/
def stackLinesOf (st : String) : List String :=
  (jsSplit st '\n').take 8

/-- Rendered stack-trace lines: each selected line trimmed and indented. -/
def renderedStackLines (st : String) : List String :=
  (stackLinesOf st).map (fun l => "    " ++ jsTrim l)

/-- The Stack Trace block pushed by both fault branches. -/
def renderStackBlock (st : String) : String :=
  "  Stack Trace:\n" ++ String.intercalate "\n" (renderedStackLines st)

/-- Truncation of a pretty-printed fault payload at 500 characters with an
explicit marker. -/
def truncatePayload (s : String) : String :=
  if jsLength s > 500 then jsTake s 500 ++ "\n    ... (truncated)" else s

/-- Nullish fallback of an envelope message field to the empty object, as
in JSON.stringify(envelope.message ?? \x7b\x7d, null, 2). -/
def nullishObj (o : Option Json) : Json :=
  match o with
  | some v => if isJsNull v then Json.obj [] else v
  | none => Json.obj []

/-- The exception line shared by the fault branches. -/
def exceptionLine (ex : Option Json) : String :=
  "  Exception: " ++ ndefault (optGet ex "exceptionType") "unknown" ++
    " - \"" ++ ndefault (optGet ex "message") "unknown" ++ "\""

/-- The header-based branch of formatFaultMessage (lines 133-185 of
src/masstransit.ts): renders exclusively from the header fault, the
parsed envelope and the index. -/
def renderHeaderFault (hf : Fault) (envelope : Option Json) (index : Nat) : String :=
  let ex : Option Json := hf.exceptions.bind List.head?
  let messageType := headerMessageTypeString hf.messageType envelope
  let hostInfo := hostInfoString hf.host
  let lines : List String :=
    ["Message " ++ toString (index + 1) ++ ":",
     "  Faulted: " ++ ndefault hf.timestamp "unknown",
     "  Reason: " ++ ndefault hf.reason "fault",
     "  Message Type: " ++ messageType]
  let lines := lines ++
    (match hf.consumerType with
     | some c => if jsTruthy c then ["  Consumer: " ++ jsToString c] else []
     | none => [])
  let lines := lines ++
    (match ex with
     | some e => if jsTruthy e then [exceptionLine (some e)] else []
     | none => [])
  let lines := lines ++
    (match hf.retryCount with
     | some v => ["  Retry Count: " ++ jsToString v]
     | none => [])
  let lines := lines ++
    (match optGet ex "stackTrace" with
     | some st => if jsTruthy st then [renderStackBlock (jsToString st)] else []
     | none => [])
  let lines := lines ++
    (match optGet envelope "message" with
     | some m => if jsTruthy m then ["  Original Payload: " ++ truncatePayload (jsonStringify m)] else []
     | none => [])
  let lines := lines ++ ["  Source Host: " ++ hostInfo]
  let lines := lines ++
    (if truthyOpt (optGet hf.host "assembly") && truthyOpt (optGet hf.host "assemblyVersion") then
       ["  Assembly: " ++ jsToString ((optGet hf.host "assembly").getD Json.null) ++
        " v" ++ jsToString ((optGet hf.host "assemblyVersion").getD Json.null) ++
        " (.NET " ++ ndefault (optGet hf.host "frameworkVersion") "?" ++ ")"]
     else [])
  String.intercalate "\n" lines

/-- The body-based branch of formatFaultMessage (lines 188-222 of
src/masstransit.ts). -/
def renderBodyFault (bf : Fault) (envelope : Option Json) (index : Nat) : String :=
  let ex : Option Json := bf.exceptions.bind List.head?
  let messageTypes := envMessageTypes envelope
  let hostInfo := hostInfoString bf.host
  let lines : List String :=
    ["Message " ++ toString (index + 1) ++ ":",
     "  Faulted: " ++ ndefault bf.timestamp "unknown",
     "  Original MessageId: " ++ ndefault bf.faultedMessageId "unknown",
     "  Message Type: " ++
       (if messageTypes.isEmpty then "unknown" else String.intercalate ", " messageTypes),
     exceptionLine ex]
  let lines := lines ++
    (match optGet ex "stackTrace" with
     | some st => if jsTruthy st then [renderStackBlock (jsToString st)] else []
     | none => [])
  let lines := lines ++
    (match bf.message with
     | some m => if jsTruthy m then ["  Original Payload: " ++ truncatePayload (jsonStringify m)] else []
     | none => [])
  let lines := lines ++ ["  Source Host: " ++ hostInfo]
  String.intercalate "\n" lines

/-- The plain-envelope fallback branch of formatFaultMessage (lines 225-236
of src/masstransit.ts); the payload is cut at 500 characters without a
marker here. -/
def renderEnvelopeOnly (env : Json) (index : Nat) : String :=
  let messageTypes := envMessageTypes (some env)
  String.intercalate "\n"
    ["Message " ++ toString (index + 1) ++ ":",
     "  MessageId: " ++ ndefault (jsonGet env "messageId") "unknown",
     "  Sent: " ++ ndefault (jsonGet env "sentTime") "unknown",
     "  Message Type: " ++
       (if messageTypes.isEmpty then "unknown" else String.intercalate ", " messageTypes),
     "  Payload: " ++ jsTake (jsonStringify (nullishObj (jsonGet env "message"))) 500]

/-- The raw-message fallback branch of formatFaultMessage (lines 239-244 of
src/masstransit.ts). -/
def renderRaw (msg : PeekedMessage) (index : Nat) : String :=
  String.intercalate "\n"
    ["Message " ++ toString (index + 1) ++ ":",
     "  Exchange: " ++ msg.exchange,
     "  Routing Key: " ++ msg.routing_key,
     "  Payload: " ++ jsTake msg.payload 500]

/-- formatFaultMessage from src/masstransit.ts: compute the header fault,
the body fault and the envelope, then render the first applicable branch
in the precedence order header fault, body fault, plain envelope, raw. -/
def formatFaultMessage (msg : PeekedMessage) (index : Nat) : String :=
  let headers := msg.headers.getD []
  match parseFaultFromHeaders headers with
  | some headerFault => renderHeaderFault headerFault (parseEnvelope msg.payload) index
  | none =>
    match parseFault msg.payload with
    | some bodyFault => renderBodyFault bodyFault (parseEnvelope msg.payload) index
    | none =>
      match parseEnvelope msg.payload with
      | some envelope => renderEnvelopeOnly envelope index
      | none => renderRaw msg index

/-! ## peek_messages formatting (src/tools/messages.ts) -/

/-- Truncation of a peeked message payload at 1000 characters with the
peek marker. -/
def truncatePeek (s : String) : String :=
  if jsLength s > 1000 then jsTake s 1000 ++ "\n... (truncated)" else s

/-- The per-message block of the peek_messages handler (lines 45-86 of
src/tools/messages.ts): envelope view when an envelope parses, raw view
otherwise; both payload renderings are cut at 1000 characters. -/
def peekMessageLines (msg : PeekedMessage) (i : Nat) : List String :=
  ["--- Message " ++ toString (i + 1) ++ " ---"] ++
  (match parseEnvelope msg.payload with
   | some env =>
     let types := envMessageTypes (some env)
     ["MessageId: " ++ ndefault (jsonGet env "messageId") "unknown",
      "Sent: " ++ ndefault (jsonGet env "sentTime") "unknown",
      "Type: " ++ (if types.isEmpty then "unknown" else String.intercalate ", " types)] ++
     (match jsonGet env "correlationId" with
      | some c => if jsTruthy c then ["CorrelationId: " ++ jsToString c] else []
      | none => []) ++
     (match jsonGet env "conversationId" with
      | some c => if jsTruthy c then ["ConversationId: " ++ jsToString c] else []
      | none => []) ++
     ["Payload:", truncatePeek (jsonStringify (nullishObj (jsonGet env "message")))]
   | none =>
     ["Exchange: " ++ msg.exchange,
      "Routing Key: " ++ msg.routing_key,
      "Content Type: " ++ msg.content_type.getD "unknown",
      "Payload:", truncatePeek msg.payload]) ++
  [""]

/-! ## Management-API client (src/rabbitmq-client.ts) and republish
orchestrator (src/tools/masstransit.ts) -/

/-- Modelled from the spec: the broker management get endpoint itself is an
external collaborator missing from src.  Per the spec, requeue-on-read
semantics (ackmode ack_requeue_true) leave the queue unchanged while
acknowledge-on-read (ackmode ack_requeue_false) removes the fetched
messages; up to count messages are returned in queue order. -/
def brokerGet (queue : List PeekedMessage) (count : Nat) (ackmode : String) :
    List PeekedMessage × List PeekedMessage :=
  (queue.take count,
   if ackmode = "ack_requeue_false" then queue.drop count else queue)

/-- peekMessages from src/rabbitmq-client.ts: a get with the default ack
mode ack_requeue_true. -/
def peekMessages (queue : List PeekedMessage) (count : Nat) :
    List PeekedMessage × List PeekedMessage :=
  brokerGet queue count "ack_requeue_true"

/-- consumeMessages from src/rabbitmq-client.ts: a get with ack mode
ack_requeue_false. -/
def consumeMessages (queue : List PeekedMessage) (count : Nat) :
    List PeekedMessage × List PeekedMessage :=
  brokerGet queue count "ack_requeue_false"

/-- A management-API call issued by a tool handler. -/
inductive ApiCall where
  | get (queue : String) (count : Nat) (ackmode : String)
  | publish (exchange : String) (routingKey : String) (payload : String)
      (contentType : String) (headers : Option (List (String × Json)))
      (messageId : Option String)

/-- Modelled builtin: the WHATWG URL constructor (new URL), restricted to
absolute hierarchical references of the shape scheme://authority/path as
used for MassTransit destination addresses; yields the pathname, or none
where the constructor throws. -/
def urlPathname (s : String) : Option String :=
  match s.data with
  | c :: rest =>
    if c.isAlpha then
      match rest.dropWhile (fun ch => ch.isAlphanum || ch = '+' || ch = '-' || ch = '.') with
      | ':' :: '/' :: '/' :: tail =>
        let auth := tail.takeWhile (fun ch => ch != '/' && ch != '?' && ch != '#')
        if auth.isEmpty then none
        else some (String.mk ((tail.drop auth.length).takeWhile (fun ch => ch != '?' && ch != '#')))
      | _ => none
    else none
  | [] => none

/-- Destination resolution of the republish commit phase (lines 456-472 of
src/tools/masstransit.ts): a truthy destinationAddress is URL-parsed and
its last non-empty path segment becomes both exchange and routing key;
without one, the source queue derived from the error queue name is used
for both.  A throwing URL parse surfaces as the error the per-message
try/catch captures. -/
def resolveDestination (errorQueue : String) (payload : String) :
    Except String (String × String) :=
  match optGet (parseEnvelope payload) "destinationAddress" with
  | some da =>
    if jsTruthy da then
      match urlPathname (jsToString da) with
      | some path =>
        let pathParts := (jsSplit path '/').filter (fun p => !p.data.isEmpty)
        let targetExchange := pathParts.getLast?.getD ""
        Except.ok (targetExchange, targetExchange)
      | none => Except.error "Invalid URL"
    else Except.ok (getSourceQueue errorQueue, getSourceQueue errorQueue)
  | none => Except.ok (getSourceQueue errorQueue, getSourceQueue errorQueue)

/-- State of the commit loop: successes, per-message error strings, and
the publish calls issued. -/
structure CommitAcc where
  republished : Nat
  errors : List String
  calls : List ApiCall

/-- The publish call issued for one consumed message: the original payload
bytes with the original content_type (or the MassTransit default), headers
and message_id forwarded. -/
def publishCallOf (msg : PeekedMessage) (dest : String × String) : ApiCall :=
  ApiCall.publish dest.1 dest.2 msg.payload
    (msg.content_type.getD "application/vnd.masstransit+json") msg.headers msg.message_id

/-- One iteration of the commit loop (lines 454-498 of
src/tools/masstransit.ts).  The failure argument models a
client.publishMessage rejection for this message; the per-message error
label uses the running success count plus one, as in the source. -/
def commitStep (errorQueue : String) (failure : Option String)
    (acc : CommitAcc) (msg : PeekedMessage) : CommitAcc :=
  match resolveDestination errorQueue msg.payload with
  | Except.error e =>
    { acc with errors := acc.errors ++ ["Message " ++ toString (acc.republished + 1) ++ ": " ++ e] }
  | Except.ok dest =>
    match failure with
    | some e =>
      { acc with calls := acc.calls ++ [publishCallOf msg dest],
                 errors := acc.errors ++ ["Message " ++ toString (acc.republished + 1) ++ ": " ++ e] }
    | none =>
      { acc with calls := acc.calls ++ [publishCallOf msg dest],
                 republished := acc.republished + 1 }

/-- Sequential run of the commit loop over the consumed messages; pubFail
gives the simulated publish outcome per message position. -/
def commitRun (errorQueue : String) (pubFail : Nat → Option String) :
    Nat → CommitAcc → List PeekedMessage → CommitAcc
  | _, acc, [] => acc
  | i, acc, m :: rest =>
    commitRun errorQueue pubFail (i + 1) (commitStep errorQueue (pubFail i) acc m) rest

/-- The commit-phase outcome over a consumed message list. -/
def commitOutcome (errorQueue : String) (msgs : List PeekedMessage)
    (pubFail : Nat → Option String) : CommitAcc :=
  commitRun errorQueue pubFail 0 ⟨0, [], []⟩ msgs

/-- The formatted preview blocks: each message rendered by
formatFaultMessage at its index, followed by a blank line. -/
def formattedBlocks : Nat → List PeekedMessage → List String
  | _, [] => []
  | i, m :: rest => formatFaultMessage m i :: "" :: formattedBlocks (i + 1) rest

/-- The instruction line of the preview phase for a given number of
previewed messages. -/
def confirmInstruction (n : Nat) : String :=
  "To republish these messages, call again with confirm=true and count=" ++ toString n ++ "."

/-- The preview-phase response lines (lines 414-426 of
src/tools/masstransit.ts). -/
def previewLines (errorQueue : String) (messages : List PeekedMessage) : List String :=
  ["Preview: " ++ toString messages.length ++ " message(s) from \"" ++ errorQueue ++
     "\" ready to republish:\n"] ++
  formattedBlocks 0 messages ++
  ["---", confirmInstruction messages.length]

/-- Result of one republish_from_error invocation: the response text, the
queue contents after the invocation, and the API calls issued. -/
structure ToolResult where
  text : String
  queueAfter : List PeekedMessage
  calls : List ApiCall

/-- The empty-queue response text. -/
def emptyQueueText (errorQueue : String) : String :=
  "Queue \"" ++ errorQueue ++ "\" is empty — nothing to republish."

/-- The commit-phase response text: successes out of attempted, plus the
error block when any message failed. -/
def commitText (errorQueue : String) (attempted : Nat) (outcome : CommitAcc) : String :=
  String.intercalate "\n"
    (["Republished " ++ toString outcome.republished ++ "/" ++ toString attempted ++
        " message(s) from \"" ++ errorQueue ++ "\"."] ++
     (if outcome.errors.isEmpty then [] else ["", "Errors:"] ++ outcome.errors))

/-- The republish_from_error handler (lines 392-508 of
src/tools/masstransit.ts).  Without confirm it peeks (requeue-on-read) and
returns the preview; with confirm=true it consumes (acknowledge-on-read)
and republishes each message, never aborting the batch. -/
def republishFromError (errorQueue : String) (count : Option Nat) (confirm : Option Bool)
    (queue : List PeekedMessage) (pubFail : Nat → Option String) : ToolResult :=
  let peekCount := count.getD 1
  if !(confirm.getD false) then
    let fetched := peekMessages queue peekCount
    if fetched.1.isEmpty then
      { text := emptyQueueText errorQueue, queueAfter := fetched.2,
        calls := [ApiCall.get errorQueue peekCount "ack_requeue_true"] }
    else
      { text := String.intercalate "\n" (previewLines errorQueue fetched.1),
        queueAfter := fetched.2,
        calls := [ApiCall.get errorQueue peekCount "ack_requeue_true"] }
  else
    let fetched := consumeMessages queue peekCount
    if fetched.1.isEmpty then
      { text := emptyQueueText errorQueue, queueAfter := fetched.2,
        calls := [ApiCall.get errorQueue peekCount "ack_requeue_false"] }
    else
      let outcome := commitOutcome errorQueue fetched.1 pubFail
      { text := commitText errorQueue fetched.1.length outcome,
        queueAfter := fetched.2,
        calls := ApiCall.get errorQueue peekCount "ack_requeue_false" :: outcome.calls }

/-! ## Concrete fixtures -/

/-- A payload carrying a body-encoded fault: message.exceptions is a
non-empty array. -/
def bodyFaultPayload : String :=
  "\x7b\"message\":\x7b\"exceptions\":[\x7b\"exceptionType\":\"X\"\x7d]\x7d\x7d"

/-- A plain envelope payload with a message object and no fault markers. -/
def plainPayload : String := "\x7b\"message\":\x7b\"x\":1\x7d\x7d"

/-- An envelope payload with a well-formed destinationAddress URI. -/
def destPayload : String :=
  "\x7b\"message\":\x7b\"x\":1\x7d,\"destinationAddress\":\"proto://host/vhost/orders-exchange\"\x7d"

/-- An envelope payload whose destinationAddress is not a parseable URL. -/
def badDestPayload : String :=
  "\x7b\"message\":\x7b\"x\":1\x7d,\"destinationAddress\":\"not-a-url\"\x7d"

/-- Headers carrying only MT-Reason, enough for header-based detection. -/
def reasonHeaders : List (String × Json) := [("MT-Reason", Json.str "fault")]

/-- The header set of the formatted-fault scenario of the spec. -/
def faultScenarioHeaders : List (String × Json) :=
  [("MT-Reason", Json.str "fault"),
   ("MT-Fault-ExceptionType", Json.str "System.InvalidOperationException"),
   ("MT-Fault-Message", Json.str "bad state"),
   ("MT-Fault-RetryCount", Json.str "3")]

/-- The body of the formatted-fault scenario of the spec. -/
def faultScenarioPayload : String :=
  "\x7b\"messageType\":[\"urn:message:App:OrderPlaced\"],\"message\":\x7b\"id\":1\x7d\x7d"

/-- The message of the formatted-fault scenario of the spec. -/
def faultScenarioMsg : PeekedMessage :=
  { payload := faultScenarioPayload, exchange := "", routing_key := "",
    headers := some faultScenarioHeaders }

/-- A message carrying both a header-based fault signal and a body-based
fault. -/
def mixedFaultMsg : PeekedMessage :=
  { payload := bodyFaultPayload, exchange := "e", routing_key := "r",
    headers := some reasonHeaders }

/-- A message with a plain envelope payload and no headers. -/
def plainMsg : PeekedMessage :=
  { payload := plainPayload, exchange := "e", routing_key := "r" }

/-- A message whose envelope names a destination address. -/
def destMsg : PeekedMessage :=
  { payload := destPayload, exchange := "e", routing_key := "r" }

/-- A message whose envelope has a malformed destination address. -/
def badDestMsg : PeekedMessage :=
  { payload := badDestPayload, exchange := "e", routing_key := "r" }

/-- A stack trace with twelve lines, exceeding the eight-line limit. -/
def longStack : String :=
  String.intercalate "\n" (List.replicate 12 "  at Foo.bar()  ")

/-- A 501-character string, exceeding the 500-character payload limit. -/
def longPayloadString : String := String.mk (List.replicate 501 'a')

/-- A 1001-character string, exceeding the 1000-character peek limit. -/
def longPeekString : String := String.mk (List.replicate 1001 'a')

/-! ## Helper lemmas -/

set_option maxRecDepth 40000

lemma jsEndsWith_append_self (n s : String) : jsEndsWith (n ++ s) s = true := by
  simp [jsEndsWith, List.isSuffixOf_iff_suffix]

lemma jsDropRight_append (n s : String) : jsDropRight (n ++ s) s.data.length = n := by
  unfold jsDropRight
  rw [String.data_append, List.length_append, Nat.add_sub_cancel, List.take_left]

lemma error_not_suffix_skipped (n : String) :
    jsEndsWith (n ++ "_skipped") "_error" = false := by
  unfold jsEndsWith
  rw [String.data_append]
  by_contra h
  rw [Bool.not_eq_false, List.isSuffixOf_iff_suffix] at h
  rcases List.suffix_or_suffix_of_suffix h (List.suffix_append n.data "_skipped".data) with h2 | h2
  · exact absurd h2 (by decide)
  · exact absurd h2.length_le (by decide)

lemma truthyOpt_eq_true (o : Option Json) (h : truthyOpt o = true) : ∃ v, o = some v := by
  cases o with
  | none => simp [truthyOpt] at h
  | some v => exact ⟨v, rfl⟩

lemma jsonGet_eq_some (j : Json) (k : String) (v : Json) (h : jsonGet j k = some v) :
    ∃ kvs, j = Json.obj kvs ∧ k ∈ kvs.map Prod.fst := by
  cases j with
  | obj kvs =>
    simp only [jsonGet] at h
    refine ⟨kvs, rfl, ?_⟩
    have hv := List.mem_of_getLast?_eq_some h
    rcases List.mem_filterMap.mp hv with ⟨kv, hkv, hif⟩
    by_cases hk : kv.1 = k
    · exact hk ▸ List.mem_map_of_mem Prod.fst hkv
    · simp [hk] at hif
  | null => simp [jsonGet] at h
  | bool b => simp [jsonGet] at h
  | num n => simp [jsonGet] at h
  | str s => simp [jsonGet] at h
  | arr xs => simp [jsonGet] at h

lemma jsonGet_eq_none_of_not_mem (kvs : List (String × Json)) (k : String)
    (h : k ∉ kvs.map Prod.fst) : jsonGet (Json.obj kvs) k = none := by
  simp only [jsonGet]
  have : kvs.filterMap (fun kv => if kv.1 = k then some kv.2 else none) = [] := by
    rw [List.filterMap_eq_nil_iff]
    intro kv hkv
    have : kv.1 ≠ k := fun he => h (he ▸ List.mem_map_of_mem Prod.fst hkv)
    simp [this]
  rw [this]
  rfl

/-! ## Claim C9: queue naming algebra -/

/-- Claim C9: for every queue name n, appending _error yields an error
queue whose source queue is n, appending _skipped yields a skipped queue
whose source queue is n, and a name bearing neither suffix is its own
source queue. -/
theorem c9_queue_naming_classifier (n : String) :
    isErrorQueue (n ++ "_error") = true ∧
    getSourceQueue (n ++ "_error") = n ∧
    isSkippedQueue (n ++ "_skipped") = true ∧
    getSourceQueue (n ++ "_skipped") = n ∧
    (isErrorQueue n = false → isSkippedQueue n = false → getSourceQueue n = n) := by
  refine ⟨jsEndsWith_append_self n "_error", ?_, jsEndsWith_append_self n "_skipped", ?_, ?_⟩
  · unfold getSourceQueue
    rw [jsEndsWith_append_self n "_error", if_pos rfl]
    exact jsDropRight_append n "_error"
  · unfold getSourceQueue
    rw [error_not_suffix_skipped n, jsEndsWith_append_self n "_skipped"]
    simp only [Bool.false_eq_true, if_false, if_pos rfl]
    exact jsDropRight_append n "_skipped"
  · intro h1 h2
    unfold isErrorQueue at h1
    unfold isSkippedQueue at h2
    unfold getSourceQueue
    rw [h1, h2]
    simp

/-- Witness for C9 at the concrete queue name orders. -/
theorem c9_queue_naming_classifier_witness :
    isErrorQueue ("orders" ++ "_error") = true ∧ getSourceQueue "orders" = "orders" :=
  ⟨(c9_queue_naming_classifier "orders").1,
   (c9_queue_naming_classifier "orders").2.2.2.2 (by decide) (by decide)⟩

/-! ## Claim C8: envelope recognition guard -/

/-- Claim C8: a payload that fails to JSON-parse makes parseEnvelope
return absence rather than raise; any returned envelope is a JSON object
carrying at least one of the keys messageType, messageId, message; and a
parsed object with none of those keys is rejected. -/
theorem c8_parse_envelope_guard (payload : String) :
    (jsonParse payload = none → parseEnvelope payload = none) ∧
    (∀ env, parseEnvelope payload = some env →
      ∃ kvs, env = Json.obj kvs ∧
        ("messageType" ∈ kvs.map Prod.fst ∨ "messageId" ∈ kvs.map Prod.fst ∨
         "message" ∈ kvs.map Prod.fst)) ∧
    (∀ kvs, jsonParse payload = some (Json.obj kvs) →
      "messageType" ∉ kvs.map Prod.fst → "messageId" ∉ kvs.map Prod.fst →
      "message" ∉ kvs.map Prod.fst → parseEnvelope payload = none) := by
  refine ⟨?_, ?_, ?_⟩
  · intro h
    unfold parseEnvelope
    rw [h]
  · intro env henv
    unfold parseEnvelope at henv
    split at henv
    · exact absurd henv (by simp)
    · rename_i parsed hp
      split at henv
      case isTrue hc =>
        have hep : env = parsed := by injection henv with h; exact h.symm
        subst hep
        rcases Bool.and_eq_true_iff.mp hc with ⟨-, hor⟩
        rcases Bool.or_eq_true_iff.mp hor with hor1 | h3
        · rcases Bool.or_eq_true_iff.mp hor1 with h1 | h2
          · obtain ⟨v, hg⟩ := truthyOpt_eq_true _ h1
            rcases jsonGet_eq_some env _ v hg with ⟨kvs, hobj, hmem⟩
            exact ⟨kvs, hobj, Or.inl hmem⟩
          · obtain ⟨v, hg⟩ := truthyOpt_eq_true _ h2
            rcases jsonGet_eq_some env _ v hg with ⟨kvs, hobj, hmem⟩
            exact ⟨kvs, hobj, Or.inr (Or.inl hmem)⟩
        · obtain ⟨v, hg⟩ := truthyOpt_eq_true _ h3
          rcases jsonGet_eq_some env _ v hg with ⟨kvs, hobj, hmem⟩
          exact ⟨kvs, hobj, Or.inr (Or.inr hmem)⟩
      case isFalse hc => exact absurd henv (by simp)
  · intro kvs hp h1 h2 h3
    unfold parseEnvelope
    rw [hp]
    simp [truthyOpt, jsonGet_eq_none_of_not_mem kvs _ h1,
      jsonGet_eq_none_of_not_mem kvs _ h2, jsonGet_eq_none_of_not_mem kvs _ h3]

/-- Witness for C8 at concrete payloads: a non-JSON payload and a valid
JSON object with none of the marker keys both yield absence. -/
theorem c8_parse_envelope_guard_witness :
    parseEnvelope "not json" = none ∧ parseEnvelope "\x7b\"a\":1\x7d" = none := by
  refine ⟨(c8_parse_envelope_guard "not json").1 (by rfl), ?_⟩
  exact (c8_parse_envelope_guard "\x7b\"a\":1\x7d").2.2 [("a", Json.num 1)]
    (by rfl) (by decide) (by decide) (by decide)

/-! ## Claim C10: recognition tests truthiness, not key presence -/

/-- Claim C10: valid-JSON payloads whose object carries a marker key with
a falsy value are rejected by parseEnvelope: an empty-string messageId and
a null message both yield absence even though the keys are present. -/
theorem c10_falsy_marker_values_rejected :
    jsonParse "\x7b\"messageId\":\"\"\x7d" = some (Json.obj [("messageId", Json.str "")]) ∧
    parseEnvelope "\x7b\"messageId\":\"\"\x7d" = none ∧
    jsonParse "\x7b\"message\":null\x7d" = some (Json.obj [("message", Json.null)]) ∧
    parseEnvelope "\x7b\"message\":null\x7d" = none :=
  ⟨rfl, rfl, rfl, rfl⟩

/-! ## Claim C6: formatted-fault scenario -/

/-- Claim C6: for the scenario message with the four MT fault headers and
the OrderPlaced envelope body, the formatted output carries the Reason,
Exception, Retry Count and decoded Message Type lines and an Original
Payload block containing the id field. -/
theorem c6_fault_scenario_output :
    formatFaultMessage faultScenarioMsg 0 =
      "Message 1:\n  Faulted: unknown\n  Reason: fault\n  Message Type: App.OrderPlaced\n  Exception: System.InvalidOperationException - \"bad state\"\n  Retry Count: 3\n  Original Payload: \x7b\n  \"id\": 1\n\x7d\n  Source Host: unknown / unknown (PID ?)" ∧
    "  Reason: fault" ∈ jsSplit (formatFaultMessage faultScenarioMsg 0) '\n' ∧
    "  Exception: System.InvalidOperationException - \"bad state\"" ∈
      jsSplit (formatFaultMessage faultScenarioMsg 0) '\n' ∧
    "  Retry Count: 3" ∈ jsSplit (formatFaultMessage faultScenarioMsg 0) '\n' ∧
    "  Message Type: App.OrderPlaced" ∈ jsSplit (formatFaultMessage faultScenarioMsg 0) '\n' ∧
    "  Original Payload: \x7b" ∈ jsSplit (formatFaultMessage faultScenarioMsg 0) '\n' ∧
    "  \"id\": 1" ∈ jsSplit (formatFaultMessage faultScenarioMsg 0) '\n' := by
  refine ⟨rfl, ?_, ?_, ?_, ?_, ?_, ?_⟩ <;> decide

/-! ## Claim C7: fixed truncation limits -/

/-- Claim C7: the formatter renders at most eight stack-trace lines, each
trimmed; a fault payload block longer than 500 characters is cut at 500
with the explicit truncation marker; and peeked non-fault payloads are cut
at 1000 characters. -/
theorem c7_truncation_constants (st s p : String) :
    (renderedStackLines st).length = min 8 (jsSplit st '\n').length ∧
    (∀ l ∈ renderedStackLines st, ∃ l0 ∈ jsSplit st '\n', l = "    " ++ jsTrim l0) ∧
    (500 < jsLength s → truncatePayload s = jsTake s 500 ++ "\n    ... (truncated)") ∧
    (jsLength s ≤ 500 → truncatePayload s = s) ∧
    (1000 < jsLength p → truncatePeek p = jsTake p 1000 ++ "\n... (truncated)") ∧
    (jsLength p ≤ 1000 → truncatePeek p = p) := by
  refine ⟨?_, ?_, ?_, ?_, ?_, ?_⟩
  · simp [renderedStackLines, stackLinesOf, List.length_take, Nat.min_comm]
  · intro l hl
    rcases List.mem_map.mp hl with ⟨l0, hl0, hrfl⟩
    exact ⟨l0, List.mem_of_mem_take hl0, hrfl.symm⟩
  · intro h
    unfold truncatePayload
    rw [if_pos h]
  · intro h
    unfold truncatePayload
    rw [if_neg (by omega)]
  · intro h
    unfold truncatePeek
    rw [if_pos h]
  · intro h
    unfold truncatePeek
    rw [if_neg (by omega)]

/-- Witness for C7 at a twelve-line stack trace, a 501-character payload
and a 1001-character peeked body. -/
theorem c7_truncation_constants_witness :
    (renderedStackLines longStack).length = 8 ∧
    truncatePayload longPayloadString = jsTake longPayloadString 500 ++ "\n    ... (truncated)" ∧
    truncatePeek longPeekString = jsTake longPeekString 1000 ++ "\n... (truncated)" := by
  refine ⟨?_, ?_, ?_⟩
  · rw [(c7_truncation_constants longStack "" "").1]
    decide
  · exact (c7_truncation_constants "" longPayloadString "").2.2.1 (by decide)
  · exact (c7_truncation_constants "" "" longPeekString).2.2.2.2.1 (by decide)

/-! ## Claim C1: header-fault precedence -/

/-- Claim C1: when the headers yield a fault, formatFaultMessage renders
the header-based branch, a function only of the header fault, the parsed
envelope and the index, even when the payload also yields a body fault;
the body-based branch renders only when header extraction yields nothing. -/
theorem c1_header_fault_precedence (msg : PeekedMessage) (i : Nat) :
    (∀ hf bf, parseFaultFromHeaders (msg.headers.getD []) = some hf →
      parseFault msg.payload = some bf →
      formatFaultMessage msg i = renderHeaderFault hf (parseEnvelope msg.payload) i) ∧
    (parseFaultFromHeaders (msg.headers.getD []) = none →
      ∀ bf, parseFault msg.payload = some bf →
      formatFaultMessage msg i = renderBodyFault bf (parseEnvelope msg.payload) i) := by
  constructor
  · intro hf bf hh hb
    simp only [formatFaultMessage]
    rw [hh]
  · intro hh bf hb
    simp only [formatFaultMessage]
    rw [hh, hb]

/-- Witness for C1 at a message carrying both an MT-Reason header and a
body-encoded fault: the rendered text is the header branch. -/
theorem c1_header_fault_precedence_witness :
    parseFaultFromHeaders (mixedFaultMsg.headers.getD []) =
      some ({ reason := some (Json.str "fault"), host := some (Json.obj []) } : Fault) ∧
    parseFault mixedFaultMsg.payload =
      some ({ exceptions := some [Json.obj [("exceptionType", Json.str "X")]] } : Fault) ∧
    formatFaultMessage mixedFaultMsg 0 =
      renderHeaderFault { reason := some (Json.str "fault"), host := some (Json.obj []) }
        (parseEnvelope mixedFaultMsg.payload) 0 := by
  refine ⟨rfl, rfl, ?_⟩
  exact (c1_header_fault_precedence mixedFaultMsg 0).1
    { reason := some (Json.str "fault"), host := some (Json.obj []) }
    { exceptions := some [Json.obj [("exceptionType", Json.str "X")]] } rfl rfl

/-! ## Claim C2: two-phase confirm protocol -/

/-- Claim C2: with confirm absent or false the handler only issues a
requeue-on-read get, leaves the queue unchanged, publishes nothing, and
returns the formatted previews plus the instruction to re-invoke with
confirm=true and the previewed count, which equals the requested count
whenever the queue holds that many messages; only with confirm=true does
it issue the acknowledge-on-read get that removes messages. -/
theorem c2_two_phase_confirm (errorQueue : String) (count : Option Nat)
    (confirm : Option Bool) (queue : List PeekedMessage) (pubFail : Nat → Option String)
    (hc : confirm = none ∨ confirm = some false) :
    (republishFromError errorQueue count confirm queue pubFail).calls =
      [ApiCall.get errorQueue (count.getD 1) "ack_requeue_true"] ∧
    (republishFromError errorQueue count confirm queue pubFail).queueAfter = queue ∧
    (queue.take (count.getD 1) ≠ [] →
      (republishFromError errorQueue count confirm queue pubFail).text =
        String.intercalate "\n" (previewLines errorQueue (queue.take (count.getD 1))) ∧
      confirmInstruction (queue.take (count.getD 1)).length ∈
        previewLines errorQueue (queue.take (count.getD 1)) ∧
      (count.getD 1 ≤ queue.length → (queue.take (count.getD 1)).length = count.getD 1)) ∧
    (republishFromError errorQueue count (some true) queue pubFail).queueAfter =
      queue.drop (count.getD 1) ∧
    (∃ rest, (republishFromError errorQueue count (some true) queue pubFail).calls =
      ApiCall.get errorQueue (count.getD 1) "ack_requeue_false" :: rest) := by
  have hpre : (confirm.getD false) = false := by rcases hc with h | h <;> simp [h]
  refine ⟨?_, ?_, ?_, ?_, ?_⟩
  · unfold republishFromError peekMessages brokerGet
    rw [hpre]
    by_cases he : (queue.take (count.getD 1)).isEmpty <;> simp [he]
  · unfold republishFromError peekMessages brokerGet
    rw [hpre]
    by_cases he : (queue.take (count.getD 1)).isEmpty <;> simp [he]
  · intro hne
    have he : (queue.take (count.getD 1)).isEmpty = false := by
      cases h : queue.take (count.getD 1) with
      | nil => exact absurd h hne
      | cons a l => simp [h]
    refine ⟨?_, ?_, ?_⟩
    · unfold republishFromError peekMessages brokerGet
      rw [hpre]
      simp [he]
    · simp [previewLines]
    · intro hle
      rw [List.length_take]
      exact Nat.min_eq_left hle
  · unfold republishFromError consumeMessages brokerGet
    by_cases he : (queue.take (count.getD 1)).isEmpty <;> simp [he]
  · unfold republishFromError consumeMessages brokerGet
    by_cases he : (queue.take (count.getD 1)).isEmpty
    · exact ⟨[], by simp [he]⟩
    · exact ⟨(commitOutcome errorQueue (queue.take (count.getD 1)) pubFail).calls, by simp [he]⟩

/-- Witness for C2 at a one-message queue with confirm absent. -/
theorem c2_two_phase_confirm_witness :
    (republishFromError "orders_error" none none [plainMsg] (fun _ => none)).queueAfter =
      [plainMsg] ∧
    (republishFromError "orders_error" none none [plainMsg] (fun _ => none)).calls =
      [ApiCall.get "orders_error" 1 "ack_requeue_true"] ∧
    confirmInstruction 1 ∈ previewLines "orders_error" [plainMsg] ∧
    (republishFromError "orders_error" none (some true) [plainMsg] (fun _ => none)).queueAfter =
      [] := by
  have h := c2_two_phase_confirm "orders_error" none none [plainMsg] (fun _ => none) (Or.inl rfl)
  exact ⟨h.2.1, h.1, (h.2.2.1 (by simp)).2.1, h.2.2.2.1⟩

/-! ## Claim C3: destination resolution in the commit phase -/

/-- Claim C3: a consumed message whose envelope has a URI-shaped
destinationAddress resolves to the last non-empty path segment as both
exchange and routing key, and that resolved pair is what the commit phase
publishes to; a message without a destinationAddress resolves to the
source queue of the error queue for both. -/
theorem c3_destination_resolution (errorQueue : String) :
    (∀ payload da path, optGet (parseEnvelope payload) "destinationAddress" = some da →
      jsTruthy da = true → urlPathname (jsToString da) = some path →
      resolveDestination errorQueue payload =
        Except.ok (((jsSplit path '/').filter (fun p => !p.data.isEmpty)).getLast?.getD "",
                   ((jsSplit path '/').filter (fun p => !p.data.isEmpty)).getLast?.getD "")) ∧
    (∀ payload, optGet (parseEnvelope payload) "destinationAddress" = none →
      resolveDestination errorQueue payload =
        Except.ok (getSourceQueue errorQueue, getSourceQueue errorQueue)) ∧
    (∀ (m : PeekedMessage) (e r : String),
      resolveDestination errorQueue m.payload = Except.ok (e, r) →
      (republishFromError errorQueue none (some true) [m] (fun _ => none)).calls =
        [ApiCall.get errorQueue 1 "ack_requeue_false", publishCallOf m (e, r)]) := by
  refine ⟨?_, ?_, ?_⟩
  · intro payload da path h1 h2 h3
    unfold resolveDestination
    rw [h1]
    simp only [h2, if_true]
    rw [h3]
  · intro payload h1
    unfold resolveDestination
    rw [h1]
  · intro m e r hres
    simp [republishFromError, consumeMessages, brokerGet, commitOutcome, commitRun,
      commitStep, hres]

/-- Witness for C3 at the spec scenario: the proto URI resolves to the
orders-exchange segment, and the bare envelope on orders_error resolves to
orders; the resolved pair appears in the publish call of a one-message
commit. -/
theorem c3_destination_resolution_witness :
    resolveDestination "orders_error" destPayload =
      Except.ok ("orders-exchange", "orders-exchange") ∧
    resolveDestination "orders_error" plainPayload = Except.ok ("orders", "orders") ∧
    (republishFromError "orders_error" none (some true) [destMsg] (fun _ => none)).calls =
      [ApiCall.get "orders_error" 1 "ack_requeue_false",
       publishCallOf destMsg ("orders-exchange", "orders-exchange")] := by
  refine ⟨?_, ?_, ?_⟩
  · exact ((c3_destination_resolution "orders_error").1 destPayload
      (Json.str "proto://host/vhost/orders-exchange") "/vhost/orders-exchange"
      rfl rfl rfl).trans rfl
  · exact (c3_destination_resolution "orders_error").2.1 plainPayload rfl
  · exact (c3_destination_resolution "orders_error").2.2 destMsg
      "orders-exchange" "orders-exchange" rfl

/-! ## Claim C4: malformed destination address -/

/-- Counterexample to C4 as stated: a commit over one message whose
destinationAddress does not parse as a URL does not republish it at all —
no publish call is issued, the outcome is zero successes out of one, and
the URL error is recorded for the message. -/
theorem c4_counterexample :
    resolveDestination "orders_error" badDestPayload = Except.error "Invalid URL" ∧
    (republishFromError "orders_error" none (some true) [badDestMsg] (fun _ => none)).calls =
      [ApiCall.get "orders_error" 1 "ack_requeue_false"] ∧
    (republishFromError "orders_error" none (some true) [badDestMsg] (fun _ => none)).text =
      "Republished 0/1 message(s) from \"orders_error\".\n\nErrors:\nMessage 1: Invalid URL" :=
  ⟨rfl, rfl, rfl⟩

/-- Claim C4 as amended: a malformed destinationAddress makes the URL
parse throw inside the per-message try/catch, so that message fails with
the captured error string rather than falling back to the source-queue
destination; the batch continues with the remaining messages. -/
theorem c4_amended_malformed_destination (errorQueue payload : String) (da : Json)
    (h1 : optGet (parseEnvelope payload) "destinationAddress" = some da)
    (h2 : jsTruthy da = true)
    (h3 : urlPathname (jsToString da) = none) :
    resolveDestination errorQueue payload = Except.error "Invalid URL" ∧
    (∀ (m : PeekedMessage), m.payload = payload →
      ∀ (pubFail : Nat → Option String) (rest : List PeekedMessage),
        commitOutcome errorQueue (m :: rest) pubFail =
          commitRun errorQueue pubFail 1 ⟨0, ["Message 1: Invalid URL"], []⟩ rest) := by
  have hres : resolveDestination errorQueue payload = Except.error "Invalid URL" := by
    unfold resolveDestination
    rw [h1]
    simp only [h2, if_true]
    rw [h3]
  refine ⟨hres, ?_⟩
  intro m hm pubFail rest
  unfold commitOutcome
  rw [commitRun]
  congr 1
  unfold commitStep
  rw [hm, hres]
  rfl

/-- Witness for the amended C4 at the concrete malformed message. -/
theorem c4_amended_malformed_destination_witness :
    resolveDestination "orders_error" badDestPayload = Except.error "Invalid URL" ∧
    commitOutcome "orders_error" [badDestMsg] (fun _ => none) =
      commitRun "orders_error" (fun _ => none) 1 ⟨0, ["Message 1: Invalid URL"], []⟩ [] := by
  have h := c4_amended_malformed_destination "orders_error" badDestPayload
    (Json.str "not-a-url") rfl rfl rfl
  exact ⟨h.1, h.2 badDestMsg rfl (fun _ => none) []⟩

/-! ## Claim C5: per-message errors and partial success -/

lemma commitStep_count (errorQueue : String) (failure : Option String)
    (acc : CommitAcc) (m : PeekedMessage) :
    (commitStep errorQueue failure acc m).republished +
      (commitStep errorQueue failure acc m).errors.length =
      acc.republished + acc.errors.length + 1 := by
  unfold commitStep
  cases resolveDestination errorQueue m.payload with
  | error e => simp; omega
  | ok dest =>
    cases failure with
    | some e => simp; omega
    | none => simp; omega

lemma commitRun_count (errorQueue : String) (pubFail : Nat → Option String) :
    ∀ (msgs : List PeekedMessage) (i : Nat) (acc : CommitAcc),
      (commitRun errorQueue pubFail i acc msgs).republished +
        (commitRun errorQueue pubFail i acc msgs).errors.length =
        acc.republished + acc.errors.length + msgs.length := by
  intro msgs
  induction msgs with
  | nil => intro i acc; simp [commitRun]
  | cons m rest ih =>
    intro i acc
    rw [commitRun, ih, commitStep_count]
    simp
    omega

/-- Claim C5: the commit loop accounts every consumed message either as a
success or as one captured per-message error (the batch never aborts), and
in the two-message scenario where exactly the second publish fails the
outcome is one success out of two attempts with exactly the one error
entry, reported as partial success. -/
theorem c5_partial_success (errorQueue : String) :
    (∀ msgs pubFail, (commitOutcome errorQueue msgs pubFail).republished +
        (commitOutcome errorQueue msgs pubFail).errors.length = msgs.length) ∧
    (∀ (m1 m2 : PeekedMessage) (d1 d2 : String × String) (e : String),
      resolveDestination errorQueue m1.payload = Except.ok d1 →
      resolveDestination errorQueue m2.payload = Except.ok d2 →
      ∀ pubFail : Nat → Option String, pubFail 0 = none → pubFail 1 = some e →
        (commitOutcome errorQueue [m1, m2] pubFail).republished = 1 ∧
        (commitOutcome errorQueue [m1, m2] pubFail).errors = ["Message 2: " ++ e] ∧
        (republishFromError errorQueue (some 2) (some true) [m1, m2] pubFail).text =
          String.intercalate "\n"
            ["Republished 1/2 message(s) from \"" ++ errorQueue ++ "\".", "",
             "Errors:", "Message 2: " ++ e]) := by
  constructor
  · intro msgs pubFail
    have h := commitRun_count errorQueue pubFail msgs 0 ⟨0, [], []⟩
    simpa [commitOutcome] using h
  · intro m1 m2 d1 d2 e hr1 hr2 pubFail hp0 hp1
    have houtcome : commitOutcome errorQueue [m1, m2] pubFail =
        ⟨1, ["Message 2: " ++ e],
         [publishCallOf m1 d1, publishCallOf m2 d2]⟩ := by
      simp only [commitOutcome, commitRun, commitStep, hr1, hr2, hp0, hp1]
      rfl
    refine ⟨by rw [houtcome], by rw [houtcome], ?_⟩
    have htext : (republishFromError errorQueue (some 2) (some true) [m1, m2] pubFail).text =
        commitText errorQueue 2
          ⟨1, ["Message 2: " ++ e], [publishCallOf m1 d1, publishCallOf m2 d2]⟩ := by
      unfold republishFromError consumeMessages brokerGet
      simp only [Option.getD, Bool.not_true, Bool.false_eq_true, if_false,
        List.isEmpty_cons, List.take_succ_cons, List.take_nil]
      rw [houtcome]
      rfl
    rw [htext]
    unfold commitText
    simp only [List.isEmpty_cons, Bool.false_eq_true, if_false, List.cons_append,
      List.nil_append]
    have hpre5 : "Republished " ++ toString 1 ++ "/" ++ toString 2 ++
        " message(s) from \"" = "Republished 1/2 message(s) from \"" := by decide
    rw [hpre5]

/-- Witness for C5: two plain messages on orders_error with the second
publish simulated to fail yield one success and the single error entry. -/
theorem c5_partial_success_witness :
    (commitOutcome "orders_error" [plainMsg, plainMsg]
      (fun i => if i = 1 then some "boom" else none)).republished = 1 ∧
    (commitOutcome "orders_error" [plainMsg, plainMsg]
      (fun i => if i = 1 then some "boom" else none)).errors = ["Message 2: boom"] := by
  have h := (c5_partial_success "orders_error").2 plainMsg plainMsg
    ("orders", "orders") ("orders", "orders") "boom" rfl rfl
    (fun i => if i = 1 then some "boom" else none) rfl rfl
  exact ⟨h.1, h.2.1⟩
